import Mathlib

/-!
Verification development for the token-balance aggregation service in
`src/main.py`.

The service is a thin orchestration layer over two external collaborators
(a JSON-RPC chain client and a block-explorer HTTP API).  We embed the
request handlers as pure Lean functions over an explicit `World` of
external effects: every remote call that can raise a Python exception is
modelled as an `Except String`-valued field of `World`, and every
`try/except` block of the source is modelled by matching on that result.
Python floats produced by true division are modelled as rationals, and
Python ints as `Int`/`Nat`.
-/

/-- One transfer event as it appears in the explorer's `result` array
(`src/main.py` lines 120-127).  The source keeps the fields as hex strings
and parses them with `int(e["blockNumber"], 16)` / `int(e["transactionIndex"], 16)`;
the model stores the parsed numeric values directly (a malformed payload is
covered by the `Except.error` case of `World.getLogs`, which the source's
catch-all turns into the error sentinel). -/
structure Event where
  blockNumber : Nat
  transactionIndex : Nat
deriving DecidableEq

/-- The JSON body returned by the explorer log-search endpoint: a `status`
string and a `result` list of events (`src/main.py` lines 113-120). -/
structure ExplorerData where
  status : String
  result : List Event
deriving DecidableEq

/-- Result of the `get_token_info` endpoint (`src/main.py` lines 57-63):
either the success dictionary with keys `symbol`, `name`, `totalSupply`,
or the error dictionary with key `error`. -/
inductive TokenInfoResult where
  | ok (symbol name : String) (totalSupply : ℚ)
  | err (msg : String)
deriving DecidableEq

/-- The external world: every remote or library call of `src/main.py` that
can raise.  `Except.error` models a raised exception, `Except.ok` a normal
return.
* `to_checksum_address` — `web3.to_checksum_address` (lines 36, 47, 86);
* `getBalance` — `token_contract.functions.getBalance(checksum).call()` (line 37),
  keyed by the checksummed address, returning the raw integer balance;
* `symbol`, `name`, `totalSupply`, `decimals` — the four ERC-20 reads of
  `get_token_info` (lines 50-54), keyed by the checksummed token address;
* `block_number` — `web3.eth.block_number` (line 93);
* `getLogs` — the explorer HTTP query (lines 99-113), keyed by the two
  request parameters that vary per call: `fromBlock` and the padded address
  used for `topic1`/`topic2` (the contract address, `topic0`, `toBlock=latest`
  and the api key are compile-time constants in the source);
* `get_block_timestamp` — `web3.eth.get_block(n)["timestamp"]` (lines 128-129). -/
structure World where
  to_checksum_address : String → Except String String
  getBalance : String → Except String Int
  symbol : String → Except String String
  name : String → Except String String
  totalSupply : String → Except String Int
  decimals : String → Except String Nat
  block_number : Except String Nat
  getLogs : Int → String → Except String ExplorerData
  get_block_timestamp : Nat → Except String Int

/-- `check_address_balance` (`src/main.py` lines 34-41): checksum the
address, read the raw balance, divide by `10 ** 18`; any exception is
caught and the function returns `0`.  Totality of this Lean function is
the "never raises" half of the contract. -/
def check_address_balance (w : World) (address : String) : ℚ :=
  match w.to_checksum_address address with
  | .error _ => 0
  | .ok checksum =>
    match w.getBalance checksum with
    | .error _ => 0
    | .ok balance => (balance : ℚ) / 10 ^ 18

/-- `get_token_info` (`src/main.py` lines 44-63): checksum the query
parameter, perform the four reads in source order (symbol, name,
totalSupply, decimals), return the normalized supply; any exception is
caught and returned as the error body with the exception's message. -/
def get_token_info (w : World) (token_address : String) : TokenInfoResult :=
  match w.to_checksum_address token_address with
  | .error e => .err e
  | .ok checksum =>
    match w.symbol checksum with
    | .error e => .err e
    | .ok symbol =>
      match w.name checksum with
      | .error e => .err e
      | .ok name =>
        match w.totalSupply checksum with
        | .error e => .err e
        | .ok total_supply =>
          match w.decimals checksum with
          | .error e => .err e
          | .ok decimals => .ok symbol name ((total_supply : ℚ) / 10 ^ decimals)

/-- `get_balance_batch` (`src/main.py` lines 67-71): one
`check_address_balance` task per address, gathered in input order
(`asyncio.gather` preserves the order of its arguments), paired with the
process-wide cached token symbol from `app.state`. -/
def get_balance_batch (w : World) (token_symbol : String) (addresses : List String) :
    List ℚ × String :=
  (addresses.map (check_address_balance w), token_symbol)

/-- The comparison under which Python's
`sorted(pairs, key=lambda x: x[1], reverse=True)` (`src/main.py` line 80)
places `a` no later than `b`: stable descending order on the balance
component, i.e. `a` comes before `b` exactly when `b.2 ≤ a.2` (strictly
larger balances first; on ties the input-earlier element first). -/
def balGE (a b : String × ℚ) : Prop := b.2 ≤ a.2

instance : DecidableRel balGE := fun a b => inferInstanceAs (Decidable (b.2 ≤ a.2))

instance : IsTotal (String × ℚ) balGE := ⟨fun a b => le_total b.2 a.2⟩

instance : IsTrans (String × ℚ) balGE := ⟨fun _ _ _ h1 h2 => le_trans h2 h1⟩

/-- Python's `sorted(addresses_with_balances, key=lambda x: x[1], reverse=True)`
(`src/main.py` lines 80 and 150).  CPython's sort is stable and `reverse=True`
preserves stability, so it is exactly the stable descending insertion sort:
`List.insertionSort balGE` inserts each element before the first already-placed
element with a strictly smaller balance. -/
def sortDesc (l : List (String × ℚ)) : List (String × ℚ) :=
  List.insertionSort balGE l

/-- Python's slice `l[:n]` for an `int` stop bound `n` (`src/main.py`
lines 81 and 154): for `n ≥ 0` the first `n` elements; for `n < 0` the
stop index counts from the end, i.e. `max(len(l) + n, 0)` elements. -/
def pySliceTo (n : Int) (l : List α) : List α :=
  if 0 ≤ n then l.take n.toNat else l.take (l.length - (-n).toNat)

/-- The ranking core of `get_top` (`src/main.py` lines 79-81), the spec's
`rankTop(addrs, balances, n)`: zip addresses with the gathered balances,
sort by balance descending (stable), slice to the first `n`. -/
def rankTop (addresses : List String) (balances : List ℚ) (n : Int) :
    List (String × ℚ) :=
  pySliceTo n (sortDesc (addresses.zip balances))

/-- The `get_top` endpoint (`src/main.py` lines 74-81): fetch every
balance with `check_address_balance`, then rank. -/
def get_top (w : World) (n : Int) (addresses : List String) : List (String × ℚ) :=
  rankTop addresses (addresses.map (check_address_balance w)) n

/-- Models `datetime.datetime(timestamp).strftime("%Y-%m-%d %H:%M:%S")`
(`src/main.py` line 132).  `datetime.datetime` requires the three
positional arguments year, month and day; called with the single
positional argument `timestamp` it unconditionally raises `TypeError`
before `strftime` can run, so this call never produces a string.
(The intended call was `datetime.datetime.fromtimestamp(timestamp)`.) -/
def datetime_strftime (_timestamp : Int) : Except String String :=
  .error "TypeError: datetime.datetime missing required positional arguments month and day"

/-- The sort key of `src/main.py` line 123:
`(int(e["blockNumber"], 16), int(e["transactionIndex"], 16))`. -/
def eventKey (e : Event) : Nat × Nat := (e.blockNumber, e.transactionIndex)

/-- Strict lexicographic comparison of two sort keys, as Python compares
tuples of ints. -/
def keyLtb (a b : Nat × Nat) : Bool :=
  decide (a.1 < b.1) || (decide (a.1 = b.1) && decide (a.2 < b.2))

/-- Non-strict lexicographic order on sort keys (specification side). -/
def keyLe (a b : Nat × Nat) : Prop :=
  a.1 < b.1 ∨ (a.1 = b.1 ∧ a.2 ≤ b.2)

/-- Python's `max(e :: es, key=eventKey)` (`src/main.py` lines 121-124):
scan left to right keeping the current maximum, replacing it only when a
later element's key is strictly greater — so among equal maximal keys the
first one wins. -/
def pyMaxEvent (e : Event) (es : List Event) : Event :=
  es.foldl (fun acc x => if keyLtb (eventKey acc) (eventKey x) then x else acc) e

/-- `get_last_transaction_date` (`src/main.py` lines 84-138).  Every
`.error` branch models an exception reaching the catch-all at line 136,
which returns the error sentinel.  The block range and padded topic
address are computed exactly as in lines 90-95. -/
def get_last_transaction_date (w : World) (address : String) : String :=
  match w.to_checksum_address address with
  | .error _ => "Error retrieving transaction date"
  | .ok checksum_address =>
    match w.block_number with
    | .error _ => "Error retrieving transaction date"
    | .ok current_block =>
      let blocks_per_hour : Int := 3600 / 2
      let from_block : Int := (current_block : Int) - 6 * blocks_per_hour
      let padded_address : String :=
        "0x000000000000000000000000" ++ (checksum_address.drop 2).toLower
      match w.getLogs from_block padded_address with
      | .error _ => "Error retrieving transaction date"
      | .ok data =>
        if data.status != "1" || data.result.isEmpty then
          "No transactions found"
        else
          match data.result with
          | [] => "No transactions found"
          | e :: es =>
            let latest_event := pyMaxEvent e es
            match w.get_block_timestamp latest_event.blockNumber with
            | .error _ => "Error retrieving transaction date"
            | .ok timestamp =>
              match datetime_strftime timestamp with
              | .error _ => "Error retrieving transaction date"
              | .ok date => date

/-- The `get_top_with_transactions` endpoint (`src/main.py` lines 141-158):
fetch balances, zip, sort descending, slice to `N`, then attach
`get_last_transaction_date` to each kept `(address, balance)` pair.  The
source's sequential `for` loop appending `(address, _, date)` triples is
the `List.map` below. -/
def get_top_with_transactions (w : World) (n : Int) (addresses : List String) :
    List (String × ℚ × String) :=
  let balances := addresses.map (check_address_balance w)
  let addresses_with_balances := addresses.zip balances
  let sorted_addresses := sortDesc addresses_with_balances
  (pySliceTo n sorted_addresses).map
    (fun p => (p.1, p.2, get_last_transaction_date w p.1))

/-- A world in which every external call succeeds: checksumming is the
identity, the raw balance is `5 * 10 ^ 18`, the explorer reports a single
event and the block timestamp resolves. -/
def wAllOk : World where
  to_checksum_address := fun a => .ok a
  getBalance := fun _ => .ok (5 * 10 ^ 18)
  symbol := fun _ => .ok "TKN"
  name := fun _ => .ok "Token"
  totalSupply := fun _ => .ok (10 ^ 18)
  decimals := fun _ => .ok 18
  block_number := .ok 20000
  getLogs := fun _ _ => .ok ⟨"1", [⟨16, 0⟩]⟩
  get_block_timestamp := fun _ => .ok 1700000000

/-- A world in which address checksumming raises for every input. -/
def wFail : World where
  to_checksum_address := fun _ => .error "bad address"
  getBalance := fun _ => .ok (5 * 10 ^ 18)
  symbol := fun _ => .ok "TKN"
  name := fun _ => .ok "Token"
  totalSupply := fun _ => .ok (10 ^ 18)
  decimals := fun _ => .ok 18
  block_number := .ok 20000
  getLogs := fun _ _ => .ok ⟨"1", [⟨16, 0⟩]⟩
  get_block_timestamp := fun _ => .ok 1700000000

/-- A world in which the explorer answers with a failure status and no
events. -/
def wNoTx : World where
  to_checksum_address := fun a => .ok a
  getBalance := fun _ => .ok (5 * 10 ^ 18)
  symbol := fun _ => .ok "TKN"
  name := fun _ => .ok "Token"
  totalSupply := fun _ => .ok (10 ^ 18)
  decimals := fun _ => .ok 18
  block_number := .ok 20000
  getLogs := fun _ _ => .ok ⟨"0", []⟩
  get_block_timestamp := fun _ => .ok 1700000000

/-! ### Lemmas about the ranking pipeline -/

theorem sortDesc_length (l : List (String × ℚ)) : (sortDesc l).length = l.length :=
  List.length_insertionSort balGE l

theorem sortDesc_perm (l : List (String × ℚ)) : (sortDesc l).Perm l :=
  List.perm_insertionSort balGE l

theorem sortDesc_sorted (l : List (String × ℚ)) : List.Sorted balGE (sortDesc l) :=
  List.sorted_insertionSort balGE l

theorem pySliceTo_sublist (n : Int) (l : List α) : List.Sublist (pySliceTo n l) l := by
  unfold pySliceTo
  split <;> exact List.take_sublist _ _

theorem filter_orderedInsert (p : String × ℚ) (b : ℚ) (l : List (String × ℚ)) :
    (List.orderedInsert balGE p l).filter (fun x => decide (x.2 = b)) =
      if p.2 = b then p :: l.filter (fun x => decide (x.2 = b))
      else l.filter (fun x => decide (x.2 = b)) := by
  induction l with
  | nil => by_cases hp : p.2 = b <;> simp [hp]
  | cons q rest ih =>
    by_cases hq : balGE p q
    · rw [List.orderedInsert_of_le balGE _ hq]
      by_cases hp : p.2 = b <;> by_cases hqb : q.2 = b <;>
        simp [hp, hqb, List.filter_cons]
    · have hins : List.orderedInsert balGE p (q :: rest) =
          q :: List.orderedInsert balGE p rest := by
        simp [List.orderedInsert, hq]
      rw [hins]
      have hq2 : ¬ (q.2 ≤ p.2) := hq
      have hgt : p.2 < q.2 := lt_of_not_le hq2
      by_cases hp : p.2 = b
      · have hqb : q.2 ≠ b := by rw [← hp]; exact ne_of_gt hgt
        simp [List.filter_cons, hqb, ih, hp]
      · by_cases hqb : q.2 = b <;> simp [List.filter_cons, hqb, ih, hp]

theorem sortDesc_filter (b : ℚ) (l : List (String × ℚ)) :
    (sortDesc l).filter (fun x => decide (x.2 = b)) =
      l.filter (fun x => decide (x.2 = b)) := by
  induction l with
  | nil => rfl
  | cons p rest ih =>
    show (List.orderedInsert balGE p (List.insertionSort balGE rest)).filter _ = _
    rw [filter_orderedInsert]
    by_cases hp : p.2 = b <;> simp [hp, List.filter_cons] <;> exact ih

/-- C1: the ranking operation sorts the zipped (address, balance) pairs by
balance in descending order (every returned prefix is `balGE`-sorted), the
sorted list is a permutation of the input pairs, the sort is stable (for
every balance value, the pairs carrying it appear in the sorted list in
exactly their input order), for `n ≥` the number of input addresses the
full sorted list is returned, and on the spec's scenario — addresses
`["A", "B", "C"]`, balances `[5, 0, 10]`, `N = 2` — the result is
`[("C", 10), ("A", 5)]`. -/
theorem rankTop_sorted_stable (addresses : List String) (balances : List ℚ) (n : Int) :
    List.Sorted balGE (rankTop addresses balances n)
    ∧ (sortDesc (addresses.zip balances)).Perm (addresses.zip balances)
    ∧ (∀ b : ℚ,
        (sortDesc (addresses.zip balances)).filter (fun x => decide (x.2 = b)) =
          (addresses.zip balances).filter (fun x => decide (x.2 = b)))
    ∧ ((addresses.length : Int) ≤ n →
        rankTop addresses balances n = sortDesc (addresses.zip balances))
    ∧ rankTop ["A", "B", "C"] [(5 : ℚ), 0, 10] 2 = [("C", (10 : ℚ)), ("A", 5)] := by
  refine ⟨?_, sortDesc_perm _, fun b => sortDesc_filter b _, ?_, by decide⟩
  · exact List.Pairwise.sublist (pySliceTo_sublist n _) (sortDesc_sorted _)
  · intro h
    have h0 : 0 ≤ n := by omega
    unfold rankTop pySliceTo
    rw [if_pos h0]
    apply List.take_of_length_le
    rw [sortDesc_length]
    have hz : (addresses.zip balances).length ≤ addresses.length := by
      rw [List.length_zip]; omega
    omega

/-- Witness for `rankTop_sorted_stable`: at `n = 5 ≥ 3` the full sorted
list is returned. -/
theorem rankTop_sorted_stable_witness :
    ((["A", "B", "C"] : List String).length : Int) ≤ 5 ∧
      rankTop ["A", "B", "C"] [(5 : ℚ), 0, 10] 5 =
        sortDesc ((["A", "B", "C"] : List String).zip [(5 : ℚ), 0, 10]) :=
  ⟨by decide, (rankTop_sorted_stable ["A", "B", "C"] [(5 : ℚ), 0, 10] 5).2.2.2.1 (by decide)⟩

/-- C2 counterexample: the claim says every `n ≤ 0` yields the empty
sequence, but with `N = -1` and two addresses `get_top` evaluates Python's
slice `sorted_addresses[:-1]`, which keeps the first sorted entry. -/
theorem get_top_negative_n_not_empty :
    get_top wFail (-1) ["A", "B"] = [("A", (0 : ℚ))] ∧
      get_top wFail (-1) ["A", "B"] ≠ ([] : List (String × ℚ)) := by
  constructor <;> decide

/-- C2 (amended): for `n = 0` the ranking returns the empty sequence; for
negative `n` Python slice semantics apply, returning the sorted list with
its last `|n|` entries dropped — empty only when `|n|` reaches the list
length. -/
theorem rankTop_nonpositive (addresses : List String) (balances : List ℚ) (n : Int)
    (h : n ≤ 0) :
    rankTop addresses balances n =
      if n = 0 then []
      else (sortDesc (addresses.zip balances)).take
        ((addresses.zip balances).length - n.natAbs) := by
  unfold rankTop pySliceTo
  by_cases h0 : n = 0
  · subst h0; simp
  · have hneg : n < 0 := lt_of_le_of_ne h h0
    rw [if_neg (by omega), if_neg h0]
    rw [sortDesc_length]
    congr 1
    omega

/-- Witness for `rankTop_nonpositive` at `n = -1`. -/
theorem rankTop_nonpositive_witness :
    (-1 : Int) ≤ 0 ∧
      rankTop ["A", "B"] [(1 : ℚ), 2] (-1) =
        (if (-1 : Int) = 0 then []
         else (sortDesc ((["A", "B"] : List String).zip [(1 : ℚ), 2])).take
           (((["A", "B"] : List String).zip [(1 : ℚ), 2]).length - (-1 : Int).natAbs)) :=
  ⟨by decide, rankTop_nonpositive ["A", "B"] [(1 : ℚ), 2] (-1) (by decide)⟩

/-- C3: if address checksumming raises, or the balance read on the
checksummed address raises, `check_address_balance` returns exactly `0`;
being a total Lean function of type `ℚ` it propagates no exception to its
caller. -/
theorem check_address_balance_zero_on_failure (w : World) (address : String)
    (h : (∃ e, w.to_checksum_address address = .error e) ∨
      (∃ c e, w.to_checksum_address address = .ok c ∧ w.getBalance c = .error e)) :
    check_address_balance w address = 0 := by
  rcases h with ⟨e, he⟩ | ⟨c, e, hc, he⟩
  · simp only [check_address_balance, he]
  · simp only [check_address_balance, hc, he]

/-- Witness for `check_address_balance_zero_on_failure`: in `wFail`
checksumming raises on every address. -/
theorem check_address_balance_zero_on_failure_witness :
    ((∃ e, wFail.to_checksum_address "0xZZ" = .error e) ∨
      (∃ c e, wFail.to_checksum_address "0xZZ" = .ok c ∧ wFail.getBalance c = .error e)) ∧
      check_address_balance wFail "0xZZ" = 0 :=
  ⟨Or.inl ⟨"bad address", rfl⟩,
    check_address_balance_zero_on_failure wFail "0xZZ" (Or.inl ⟨"bad address", rfl⟩)⟩

/-- C4: `get_balance_batch` returns exactly one balance per input address
(no partial results) and in input order: the i-th returned balance is the
balance fetched for the i-th input address. -/
theorem get_balance_batch_aligned (w : World) (token_symbol : String)
    (addresses : List String) :
    (get_balance_batch w token_symbol addresses).1.length = addresses.length
    ∧ ∀ i (h : i < addresses.length),
        (get_balance_batch w token_symbol addresses).1[i]? =
          some (check_address_balance w (addresses.get ⟨i, h⟩)) := by
  constructor
  · simp [get_balance_batch]
  · intro i h
    simp [get_balance_batch, List.getElem?_map, List.getElem?_eq_getElem h]

/-- Witness for `get_balance_batch_aligned` at a singleton batch. -/
theorem get_balance_batch_aligned_witness :
    0 < (["A"] : List String).length ∧
      (get_balance_batch wAllOk "TKN" ["A"]).1[0]? =
        some (check_address_balance wAllOk ((["A"] : List String).get ⟨0, by decide⟩)) :=
  ⟨by decide, (get_balance_batch_aligned wAllOk "TKN" ["A"]).2 0 (by decide)⟩

/-- C8: `get_token_info` normalizes the raw total supply by the contract's
own reported decimals: when the decimals read returns 18 and the raw
totalSupply read returns `10 ^ 18` (the other reads succeeding), the
returned totalSupply is exactly `1`. -/
theorem get_token_info_normalizes_supply (w : World) (a c s nm : String)
    (h1 : w.to_checksum_address a = .ok c)
    (h2 : w.symbol c = .ok s)
    (h3 : w.name c = .ok nm)
    (h4 : w.totalSupply c = .ok (10 ^ 18))
    (h5 : w.decimals c = .ok 18) :
    get_token_info w a = .ok s nm 1 := by
  simp only [get_token_info, h1, h2, h3, h4, h5]
  norm_num

/-- Witness for `get_token_info_normalizes_supply` in the all-success
world, whose token reports decimals 18 and raw supply `10 ^ 18`. -/
theorem get_token_info_normalizes_supply_witness :
    wAllOk.totalSupply "0xT" = .ok (10 ^ 18) ∧ wAllOk.decimals "0xT" = .ok 18 ∧
      get_token_info wAllOk "0xT" = .ok "TKN" "Token" 1 :=
  ⟨rfl, rfl,
    get_token_info_normalizes_supply wAllOk "0xT" "0xT" "TKN" "Token" rfl rfl rfl rfl rfl⟩

/-- C9: `get_token_info` always returns either the success object or the
error object (it is total), and whenever checksumming or any of the four
remote reads raises — each later read being reached only when the earlier
ones succeeded — the result is the error object carrying that exception's
message. -/
theorem get_token_info_total_or_error (w : World) (a : String) :
    ((∃ s nm ts, get_token_info w a = .ok s nm ts)
      ∨ (∃ msg, get_token_info w a = .err msg))
    ∧ (∀ e, w.to_checksum_address a = .error e → get_token_info w a = .err e)
    ∧ (∀ c e, w.to_checksum_address a = .ok c → w.symbol c = .error e →
        get_token_info w a = .err e)
    ∧ (∀ c s e, w.to_checksum_address a = .ok c → w.symbol c = .ok s →
        w.name c = .error e → get_token_info w a = .err e)
    ∧ (∀ c s nm e, w.to_checksum_address a = .ok c → w.symbol c = .ok s →
        w.name c = .ok nm → w.totalSupply c = .error e → get_token_info w a = .err e)
    ∧ (∀ c s nm ts e, w.to_checksum_address a = .ok c → w.symbol c = .ok s →
        w.name c = .ok nm → w.totalSupply c = .ok ts → w.decimals c = .error e →
        get_token_info w a = .err e) := by
  refine ⟨?_, ?_, ?_, ?_, ?_, ?_⟩
  · cases hg : get_token_info w a with
    | ok s nm ts => exact Or.inl ⟨s, nm, ts, rfl⟩
    | err msg => exact Or.inr ⟨msg, rfl⟩
  · intro e h1
    simp only [get_token_info, h1]
  · intro c e h1 h2
    simp only [get_token_info, h1, h2]
  · intro c s e h1 h2 h3
    simp only [get_token_info, h1, h2, h3]
  · intro c s nm e h1 h2 h3 h4
    simp only [get_token_info, h1, h2, h3, h4]
  · intro c s nm ts e h1 h2 h3 h4 h5
    simp only [get_token_info, h1, h2, h3, h4, h5]

/-- Witness for `get_token_info_total_or_error`: the checksum failure of
`wFail` surfaces as the error body with the exception's message. -/
theorem get_token_info_total_or_error_witness :
    wFail.to_checksum_address "0xT" = .error "bad address" ∧
      get_token_info wFail "0xT" = .err "bad address" :=
  ⟨rfl, (get_token_info_total_or_error wFail "0xT").2.1 "bad address" rfl⟩

/-! ### Lemmas about the latest-event selection -/

theorem keyLe_refl (a : Nat × Nat) : keyLe a a := Or.inr ⟨rfl, le_refl _⟩

theorem keyLe_trans {a b c : Nat × Nat} (h1 : keyLe a b) (h2 : keyLe b c) :
    keyLe a c := by
  unfold keyLe at *
  omega

theorem keyLtb_true_keyLe {a b : Nat × Nat} (h : keyLtb a b = true) : keyLe a b := by
  unfold keyLtb at h
  unfold keyLe
  simp at h
  omega

theorem keyLtb_false_keyLe {a b : Nat × Nat} (h : keyLtb a b = false) : keyLe b a := by
  unfold keyLtb at h
  unfold keyLe
  simp at h
  omega

theorem pyMaxEvent_spec (e : Event) (es : List Event) :
    pyMaxEvent e es ∈ e :: es ∧
      ∀ x ∈ e :: es, keyLe (eventKey x) (eventKey (pyMaxEvent e es)) := by
  induction es generalizing e with
  | nil =>
    refine ⟨by simp [pyMaxEvent], ?_⟩
    intro x hx
    rw [List.mem_singleton] at hx
    subst hx
    exact keyLe_refl _
  | cons y ys ih =>
    cases hb : keyLtb (eventKey e) (eventKey y) with
    | true =>
      have hstep : pyMaxEvent e (y :: ys) = pyMaxEvent y ys := by
        simp [pyMaxEvent, hb]
      obtain ⟨hmem, hmax⟩ := ih y
      rw [hstep]
      refine ⟨List.mem_cons_of_mem _ hmem, ?_⟩
      intro x hx
      rcases List.mem_cons.mp hx with hx | hx
      · rw [hx]
        exact keyLe_trans (keyLtb_true_keyLe hb) (hmax y (List.mem_cons_self _ _))
      · exact hmax x hx
    | false =>
      have hstep : pyMaxEvent e (y :: ys) = pyMaxEvent e ys := by
        simp [pyMaxEvent, hb]
      obtain ⟨hmem, hmax⟩ := ih e
      rw [hstep]
      constructor
      · rcases List.mem_cons.mp hmem with hm | hm
        · rw [hm]; exact List.mem_cons_self _ _
        · exact List.mem_cons_of_mem _ (List.mem_cons_of_mem _ hm)
      · intro x hx
        rcases List.mem_cons.mp hx with hx | hx
        · rw [hx]
          exact hmax e (List.mem_cons_self _ _)
        rcases List.mem_cons.mp hx with hx | hx
        · rw [hx]
          exact keyLe_trans (keyLtb_false_keyLe hb) (hmax e (List.mem_cons_self _ _))
        · exact hmax x (List.mem_cons_of_mem _ hx)

/-- C6: when the explorer query succeeds with status `"1"` and a non-empty
event list, `get_last_transaction_date` selects an event of the list whose
numeric (blockNumber, transactionIndex) key is lexicographically maximal
(the first such event, as Python's `max`), and resolves exactly that
event's block for the timestamp: the final answer is the continuation of
the source applied to `get_block_timestamp` at the selected event's block
number. -/
theorem latest_event_selection (w : World) (address checksum : String) (head : Nat)
    (e : Event) (es : List Event)
    (h1 : w.to_checksum_address address = .ok checksum)
    (h2 : w.block_number = .ok head)
    (h3 : w.getLogs ((head : Int) - 6 * (3600 / 2))
        ("0x000000000000000000000000" ++ (checksum.drop 2).toLower) =
      .ok ⟨"1", e :: es⟩) :
    pyMaxEvent e es ∈ e :: es
    ∧ (∀ x ∈ e :: es, keyLe (eventKey x) (eventKey (pyMaxEvent e es)))
    ∧ get_last_transaction_date w address =
        (match w.get_block_timestamp (pyMaxEvent e es).blockNumber with
         | .error _ => "Error retrieving transaction date"
         | .ok timestamp =>
           match datetime_strftime timestamp with
           | .error _ => "Error retrieving transaction date"
           | .ok date => date) := by
  obtain ⟨hmem, hmax⟩ := pyMaxEvent_spec e es
  refine ⟨hmem, hmax, ?_⟩
  simp only [get_last_transaction_date, h1, h2, h3]
  simp

/-- Witness for `latest_event_selection` in the all-success world. -/
theorem latest_event_selection_witness :
    pyMaxEvent ⟨16, 0⟩ [] ∈ ([⟨16, 0⟩] : List Event)
    ∧ (∀ x ∈ ([⟨16, 0⟩] : List Event),
        keyLe (eventKey x) (eventKey (pyMaxEvent ⟨16, 0⟩ [])))
    ∧ get_last_transaction_date wAllOk "0xAAA" =
        (match wAllOk.get_block_timestamp (pyMaxEvent ⟨16, 0⟩ []).blockNumber with
         | .error _ => "Error retrieving transaction date"
         | .ok timestamp =>
           match datetime_strftime timestamp with
           | .error _ => "Error retrieving transaction date"
           | .ok date => date) :=
  latest_event_selection wAllOk "0xAAA" "0xAAA" 20000 ⟨16, 0⟩ [] rfl rfl rfl

/-- C7: when the explorer call itself succeeds but reports a status other
than `"1"` or an empty result list, `get_last_transaction_date` returns
the "No transactions found" sentinel — not the error sentinel, and (the
function being total) no exception. -/
theorem no_transactions_sentinel (w : World) (address checksum : String) (head : Nat)
    (data : ExplorerData)
    (h1 : w.to_checksum_address address = .ok checksum)
    (h2 : w.block_number = .ok head)
    (h3 : w.getLogs ((head : Int) - 6 * (3600 / 2))
        ("0x000000000000000000000000" ++ (checksum.drop 2).toLower) = .ok data)
    (h4 : data.status ≠ "1" ∨ data.result = []) :
    get_last_transaction_date w address = "No transactions found" := by
  simp only [get_last_transaction_date, h1, h2, h3]
  rcases h4 with h4 | h4 <;> simp [h4]

/-- Witness for `no_transactions_sentinel` in a world whose explorer
answers with status `"0"` and no events. -/
theorem no_transactions_sentinel_witness :
    (("0" : String) ≠ "1" ∨ ([] : List Event) = []) ∧
      get_last_transaction_date wNoTx "0xAAA" = "No transactions found" :=
  ⟨Or.inl (by decide),
    no_transactions_sentinel wNoTx "0xAAA" "0xAAA" 20000 ⟨"0", []⟩ rfl rfl rfl
      (Or.inl (by decide))⟩

/-- C5 (code bug): the success path of `get_last_transaction_date` can
never produce a formatted date.  On line 132 the source calls
`datetime.datetime(timestamp)`, which raises `TypeError` (month and day
are missing), so the catch-all converts every run that reaches the
formatting step into the error sentinel: for every world and address the
function returns one of the two sentinel strings, never a
`YYYY-MM-DD HH:MM:SS` date. -/
theorem get_last_transaction_date_never_date (w : World) (address : String) :
    get_last_transaction_date w address = "No transactions found"
    ∨ get_last_transaction_date w address = "Error retrieving transaction date" := by
  rcases hc : w.to_checksum_address address with e1 | checksum
  · right; simp only [get_last_transaction_date, hc]
  rcases hb : w.block_number with e2 | head
  · right; simp only [get_last_transaction_date, hc, hb]
  rcases hg : w.getLogs ((head : Int) - 6 * (3600 / 2))
      ("0x000000000000000000000000" ++ (checksum.drop 2).toLower) with e3 | data
  · right; simp only [get_last_transaction_date, hc, hb, hg]
  by_cases hcond : (data.status != "1" || data.result.isEmpty) = true
  · left
    simp only [get_last_transaction_date, hc, hb, hg]
    rw [if_pos hcond]
  · cases hres : data.result with
    | nil =>
      exfalso
      apply hcond
      rw [hres]
      simp
    | cons e es =>
      right
      simp only [get_last_transaction_date, hc, hb, hg]
      rw [if_neg hcond]
      rcases ht : w.get_block_timestamp (pyMaxEvent e es).blockNumber with e4 | ts
      · simp only [hres, ht]
      · simp only [hres, ht, datetime_strftime]

/-- C10: projecting away the date component of every triple returned by
`get_top_with_transactions` yields exactly the (address, balance) list
returned by `get_top` on the same input: both rank the same fetched
balances by the same stable descending sort and truncate to the same
`N`. -/
theorem get_top_with_transactions_refines_get_top (w : World) (n : Int)
    (addresses : List String) :
    (get_top_with_transactions w n addresses).map (fun t => (t.1, t.2.1)) =
      get_top w n addresses := by
  simp only [get_top_with_transactions, get_top, rankTop, List.map_map]
  have hcomp : ((fun t : String × ℚ × String => (t.1, t.2.1)) ∘
      fun p : String × ℚ => (p.1, p.2, get_last_transaction_date w p.1)) = id := by
    funext p; rfl
  rw [hcomp, List.map_id]
